import Mathlib

/-
Verification of samlkeygen (samlkeygen/entry_points.py).

Shallow embedding conventions:
- Python strings are Lean `String`; character-level algorithms work on `List Char`
  (the `.data` of a `String`).
- Remote calls (STS token exchange, IAM alias listing) are parameters of the
  definitions that perform them: an `Option`/`Except` value or a function
  supplied by the caller stands for the outcome of the call.
- Python exceptions that a function can raise and does not catch are modelled
  with `Except Unit`; `sys.exit` via `die(msg)` is modelled with
  `Except String` carrying the message.
-/

namespace Samlkeygen

/-- Python truthiness of an optional string argument (None and the empty
string are falsy). Used for the `if account:` / `if role:` tests. -/
def pyTruthy : Option String → Bool
  | none => false
  | some s => s != ""

/-- Helper for `splitCh`: returns (current field, later fields). -/
def splitChAux (sep : Char) : List Char → List Char × List (List Char)
  | [] => ([], [])
  | c :: rest =>
    let res := splitChAux sep rest
    if c = sep then ([], res.1 :: res.2) else (c :: res.1, res.2)

/-- Python `str.split(sep)` for a one-character separator: splits on every
occurrence, keeping empty fields; the empty string yields `[[]]`. -/
def splitCh (sep : Char) (s : List Char) : List (List Char) :=
  (splitChAux sep s).1 :: (splitChAux sep s).2

/-- Substring test: `pat` occurs contiguously somewhere in `s`. -/
def containsSub (pat s : List Char) : Bool :=
  s.tails.any fun t => pat.isPrefixOf t

/-- Recursion core of `replaceAll`, structural on a fuel argument so that it
reduces definitionally; `replaceAll` supplies fuel `s.length`, which the
lemma `replaceAll_cons` below shows is always enough. -/
def replaceAllF (pat rep : List Char) : Nat → List Char → List Char
  | _, [] => []
  | 0, s => s
  | fuel + 1, c :: cs =>
    if pat ≠ [] ∧ pat.isPrefixOf (c :: cs) then
      rep ++ replaceAllF pat rep fuel ((c :: cs).drop pat.length)
    else
      c :: replaceAllF pat rep fuel cs

/-- Python `str.replace(pat, rep)` for a nonempty `pat`: replaces every
non-overlapping occurrence, scanning left to right (the replacement text is
not rescanned). For `pat = []` it returns `s` unchanged (that case is never
used here; the patterns in the source are "%a", "%r" and "role/"). -/
def replaceAll (pat rep s : List Char) : List Char :=
  replaceAllF pat rep s.length s

/-- Modelled from the spec: the trailing segment of `s` after the LAST
occurrence of `pat` (the spec's "trailing path segment of the role identifier
after its last `role/` component"); `[]` when `pat` does not occur. This is a
spec-side definition used to compare against the code's `get_role_name`. -/
def afterLast (pat : List Char) : List Char → List Char
  | [] => []
  | c :: cs =>
    if pat.isPrefixOf (c :: cs) && !(containsSub pat cs) then
      (c :: cs).drop pat.length
    else
      afterLast pat cs

/-- Numeric value of a list of decimal digit characters. -/
def digitsVal (l : List Char) : Nat :=
  l.foldl (fun n c => 10 * n + (c.toNat - ('0').toNat)) 0

/-- Python `int(s)` restricted to the plain decimal strings exercised here:
succeeds on a nonempty all-digit string, fails (ValueError -> `none`)
otherwise. (Python `int` additionally strips whitespace and accepts a sign;
the account selectors this models are plain digit strings or non-numeric
names, for which this agrees with `int`.) -/
def pyIntDigits (s : String) : Option Nat :=
  if s.data ≠ [] ∧ s.data.all (·.isDigit) then some (digitsVal s.data) else none

/-- The RoleTuple namedtuple of `extract_roles` (entry_points.py line 302):
one (principal ARN, role ARN) binding from the assertion. -/
structure RoleTuple where
  principal_arn : String
  role_arn : String
deriving DecidableEq

/-- The token payload used by the code: the three credential fields read from
`token['Credentials']` plus the assumed-role identity string
`token['AssumedRoleUser']['Arn']`. -/
structure StsToken where
  accessKeyId : String
  secretAccessKey : String
  sessionToken : String
  assumedRoleUserArn : String
deriving DecidableEq

/-- One SAML `Attribute` element of the decoded assertion: its `Name` and the
text of its descendant `AttributeValue` elements in document order. -/
structure SamlAttribute where
  name : String
  values : List String
deriving DecidableEq

/-- The attribute name holding role bindings (entry_points.py line 300). -/
def AWS_ATTRIBUTE_ROLE : String := "https://aws.amazon.com/SAML/Attributes/Role"

/-- The flattened value list of the comprehension in `extract_roles`
(entry_points.py lines 305-308): all AttributeValue texts of the attributes
named `AWS_ATTRIBUTE_ROLE`, in document order. -/
def roleValues : List SamlAttribute → List String
  | [] => []
  | a :: rest =>
    (if a.name == AWS_ATTRIBUTE_ROLE then a.values else []) ++ roleValues rest

/-- One `role_tuple(*value.text.split(','))` step (entry_points.py line 306):
the value is split on EVERY comma; the 2-field namedtuple constructor raises
TypeError (`none`) unless the split has exactly two fields. -/
def mkRole (v : String) : Option RoleTuple :=
  match splitCh ',' v.data with
  | [p, r] => some ⟨String.mk p, String.mk r⟩
  | _ => none

/-- Builds the binding list left to right; the first TypeError aborts the
whole comprehension, as in Python. -/
def collectRoles : List String → Option (List RoleTuple)
  | [] => some []
  | v :: vs =>
    match mkRole v, collectRoles vs with
    | some b, some bs => some (b :: bs)
    | _, _ => none

/-- `extract_roles` (entry_points.py lines 299-308) on the decoded assertion
XML, represented by its list of Attribute elements in document order. -/
def extract_roles (attrs : List SamlAttribute) : Option (List RoleTuple) :=
  collectRoles (roleValues attrs)

/-- The character list "role/". -/
def roleSlash : List Char := ['r', 'o', 'l', 'e', '/']

/-- `get_role_name` (entry_points.py lines 166-168):
`role_arn.split(':')[5].replace('role/', '')`. The indexing raises (`none`)
when the ARN has fewer than six colon-separated fields. -/
def get_role_name (role_arn : String) : Option String :=
  ((splitCh ':' role_arn.data)[5]?).map fun seg => String.mk (replaceAll roleSlash [] seg)

/-- Modelled from the spec: the role short name as the spec words it, "the
trailing path segment of the role identifier after its last `role/`
component" (spec section 6). Used to compare with the code's `get_role_name`. -/
def spec_role_short_name (role_arn : String) : Option String :=
  ((splitCh ':' role_arn.data)[5]?).map fun seg => String.mk (afterLast roleSlash seg)

/-- `get_account_alias` (entry_points.py lines 320-330). `listAliases` is the
outcome of the `list_account_aliases` remote call: `.error ()` for a
botocore ClientError (the only exception the `except` clause catches),
`.ok aliases` for a successful response. An empty alias list makes
`response['AccountAliases'][0]` raise an uncaught IndexError, modelled as
`.error ()` in the result; on ClientError the fallback returns
`token['AssumedRoleUser']['Arn'].split(":")[5]`. -/
def get_account_alias (token : StsToken) (listAliases : Except Unit (List String)) :
    Except Unit String :=
  match listAliases with
  | .ok aliases =>
    match aliases with
    | a :: _ => .ok a
    | [] => .error ()
  | .error _ =>
    match (splitCh ':' token.assumedRoleUserArn.data)[5]? with
    | some seg => .ok (String.mk seg)
    | none => .error ()

/-- First-match lookup in an association list (a Python dict keyed by ARN). -/
def lookupAssoc : List (String × String) → String → Option String
  | [], _ => none
  | e :: rest, k => if e.1 == k then some e.2 else lookupAssoc rest k

/-- `get_account_name` (entry_points.py lines 154-164) with the process-local
cache `get_account_name.map` passed explicitly. `stsToken` is the outcome of
`get_sts_token` (falsy `None` = `none`); `getAlias` is `get_account_alias`
applied to the remote outcome, which may raise (`.error`). Returns the
resolved name, the updated cache, and whether a token exchange was attempted
(it is attempted exactly when the ARN is not cached). -/
def get_account_name_model (cache : List (String × String)) (arn : String)
    (stsToken : Option StsToken) (getAlias : StsToken → Except Unit String) :
    Except Unit (String × List (String × String) × Bool) :=
  let attempted := (lookupAssoc cache arn).isNone
  let step : Except Unit (List (String × String)) :=
    match lookupAssoc cache arn, stsToken with
    | none, some t => (getAlias t).map fun al => cache ++ [(arn, al)]
    | _, _ => .ok cache
  step.map fun c2 => ((lookupAssoc c2 arn).getD arn, c2, attempted)

/-- The profile-name templating of `authenticate_account_role`
(entry_points.py line 198):
`profile_format.replace('%a', account_name).replace('%r', role_name)`. -/
def profile_name (fmt accountName roleName : String) : String :=
  String.mk (replaceAll ('%' :: ['r']) roleName.data
    (replaceAll ('%' :: ['a']) accountName.data fmt.data))

/-- The rewriting of the `account` selector in `authenticate`
(entry_points.py lines 75-80): if `int(account)` succeeds AND the parsed
value is truthy (nonzero), the selector is replaced by
`'arn:aws:iam::{}'.format(account_id)` built from the PARSED integer;
otherwise the selector string is kept as is. -/
def accountPattern (account : String) : String :=
  match pyIntDigits account with
  | some n => if n ≠ 0 then "arn:aws:iam::" ++ toString n else account
  | none => account

/-- `re.search` for the metacharacter-free patterns exercised here (account
numbers, `arn:aws:iam::N` prefixes, plain names): for such literal patterns
a regex search is exactly a substring test. -/
def reSearchLit (pat s : String) : Bool :=
  containsSub pat.data s.data

/-- The account-filtering block of `authenticate` (entry_points.py lines
73-98), parameterized by the regex-search primitive `search` and by
`nameOf`, the resolved account name per principal ARN (abstracting
`get_account_name(principal_arn, saml_response, role_arn, region)` in the
fallback pass). Returns `(account_arn, roles)` after the block, or the
`die` message. The first pass takes the first binding whose principal ARN
the pattern matches; the fallback pass (only on a null first pass) re-tests
against resolved account names; if a principal was chosen the binding list
is narrowed to it; `die('Account {} not found.')` fires only when the
narrowed list is empty (line 97: `if account_arn and not roles`). -/
def resolveAccountPair (search : String → String → Bool) (account : Option String)
    (roles : List RoleTuple) (nameOf : String → String) :
    Except String (Option String × List RoleTuple) :=
  if pyTruthy account then
    let acct := accountPattern (account.getD "")
    let firstPass := roles.find? fun r => search acct r.principal_arn
    let arnFound : Option String :=
      match firstPass with
      | some r => some r.principal_arn
      | none => (roles.find? fun r => search acct (nameOf r.principal_arn)).map
          (·.principal_arn)
    match arnFound with
    | some arn =>
      let kept := roles.filter fun r => r.principal_arn == arn
      if kept.isEmpty then .error ("Account " ++ acct ++ " not found.")
      else .ok (some arn, kept)
    | none => .ok (none, roles)
  else .ok (none, roles)

/-- The role-filtering block of `authenticate` (entry_points.py lines
101-111): a selector starting with `arn:` requires an exact role-ARN match,
anything else is a regex searched in the role ARN; an empty result is
`die('Role ... not found[ in account ...]')`. -/
def resolveRole (search : String → String → Bool) (roleSel : Option String)
    (accountArn : Option String) (roles : List RoleTuple) :
    Except String (List RoleTuple) :=
  if pyTruthy roleSel then
    let sel := roleSel.getD ""
    let kept :=
      if sel.startsWith "arn:" then roles.filter fun r => r.role_arn == sel
      else roles.filter fun r => search sel r.role_arn
    if kept.isEmpty then
      .error ("Role " ++ sel ++ " not found" ++
        (match accountArn with
         | some p => " in account " ++ p
         | none => ""))
    else .ok kept
  else .ok roles

/-- The selector handling of `authenticate` from its argument checks through
role filtering (entry_points.py lines 61-111): the two `die` checks on the
flag combination (lines 61-65), then account filtering, then role
filtering. Returns the working set of bindings handed to the fan-out loop,
or the `die` message that terminated the run. -/
def authenticate_filter (search : String → String → Bool) (allAccounts : Bool)
    (account roleSel : Option String) (roles : List RoleTuple)
    (nameOf : String → String) : Except String (List RoleTuple) :=
  if !(allAccounts || pyTruthy account) then
    .error "Need --account or --all-accounts"
  else if allAccounts && (pyTruthy account || pyTruthy roleSel) then
    .error "Specify --account/--role or --all-accounts, not both."
  else
    match resolveAccountPair search account roles nameOf with
    | .error m => .error m
    | .ok (accountArn, kept) => resolveRole search roleSel accountArn kept

/-- An on-disk credential store as configparser sees it: sections in file
order, each a list of (option, value) pairs in insertion order. -/
abbrev Config := List (String × List (String × String))

/-- The options of the first section with the given name, if any. -/
def lookupSection : Config → String → Option (List (String × String))
  | [], _ => none
  | e :: rest, sec => if e.1 == sec then some e.2 else lookupSection rest sec

/-- `credentials.has_section(profile)` (entry_points.py line 175). -/
def has_section (cfg : Config) (sec : String) : Bool :=
  (lookupSection cfg sec).isSome

/-- `RawConfigParser.set` at the option level: replaces the value of an
existing option in place, appends a new option at the end. -/
def setOption (opts : List (String × String)) (k v : String) :
    List (String × String) :=
  match opts with
  | [] => [(k, v)]
  | (k2, v2) :: rest =>
    if k2 == k then (k, v) :: rest else (k2, v2) :: setOption rest k v

/-- `credentials.set(profile, key, value)`: updates the named section
(section names are unchanged, only the named section's options change). -/
def setSection : Config → String → String → String → Config
  | [], _, _, _ => []
  | e :: rest, sec, k, v =>
    (if e.1 == sec then (e.1, setOption e.2 k v) else e) :: setSection rest sec k v

/-- `update_creds_file` (entry_points.py lines 170-185) on the freshly
re-read on-disk store `cfg` (`load_credentials(filename, True)` forces the
re-read, line 174): add the section if absent (`add_section` appends, lines
175-176), set the four token fields plus the `last_updated` timestamp
(lines 178-182; `now` stands for `datetime.utcnow().strftime(...)`), and
return the store that is written back out (lines 184-185). -/
def update_creds_file (cfg : Config) (profile : String) (token : StsToken)
    (now : String) : Config :=
  let cfg1 := if has_section cfg profile then cfg else cfg ++ [(profile, [])]
  let cfg2 := setSection cfg1 profile "aws_access_key_id" token.accessKeyId
  let cfg3 := setSection cfg2 profile "aws_secret_access_key" token.secretAccessKey
  let cfg4 := setSection cfg3 profile "aws_session_token" token.sessionToken
  let cfg5 := setSection cfg4 profile "aws_security_token" token.sessionToken
  setSection cfg5 profile "last_updated" now

/-- `AWS_DIR` (entry_points.py line 35): the `AWS_DIR` environment override,
or `~/.aws` (`path.expanduser` of the home directory, passed in as `home`). -/
def aws_dir (envAwsDir : Option String) (home : String) : String :=
  match envAwsDir with
  | some d => d
  | none => home ++ "/.aws"

/-- `CREDS_FILE = path.join(AWS_DIR, 'credentials')` (entry_points.py
line 36). -/
def creds_file (awsDir : String) : String := awsDir ++ "/credentials"

/-- `LOCK_FILE = CREDS_FILE + '.lck'` (entry_points.py line 37). -/
def lock_file (awsDir : String) : String := creds_file awsDir ++ ".lck"

/-- The lock path `update_creds_file` locks on: the decorator
`@interprocess_locked(LOCK_FILE)` (entry_points.py line 170) captures the
module-level constant `LOCK_FILE`; the `filename` argument of the call does
not enter into it. -/
def update_creds_lock_path (awsDir : String) (filename : String) : String :=
  lock_file awsDir

/-- `next_update = time.time() + 59 * 60` (entry_points.py line 131). The
clock is read AFTER the pass completes (all `p.join()` calls have returned),
so the argument is the pass-finish time; the pass-start time recorded at
line 119 (`started = time.time()`) is used only in the trace message of
line 130. -/
def next_update (finishTime : Nat) : Nat := finishTime + 59 * 60

/-- `counter = int((next_update - time.time()) // 60)` (entry_points.py line
133): remaining time until `nextUpdate`, at minute granularity. -/
def refresh_counter (nextUpdate now : Nat) : Nat := (nextUpdate - now) / 60

/-- Recursion core of `refresh_reports`, structural on a fuel argument so
that it reduces definitionally; `refresh_reports` supplies fuel
`nextUpdate - t`, enough because every iteration advances the clock by 60. -/
def refresh_reportsF : Nat → Nat → Nat → List Nat
  | 0, _, _ => []
  | fuel + 1, nextUpdate, t =>
    if t < nextUpdate then
      refresh_counter nextUpdate t :: refresh_reportsF fuel nextUpdate (t + 60)
    else []

/-- The sleep-report loop of `authenticate` (entry_points.py lines 132-136)
under an idealized clock advancing exactly 60 seconds per `time.sleep(60)`:
the list of minute counters printed from time `t` until the loop exits at
the first time not below `nextUpdate`. The lemma `refresh_reports_eq` below
recovers the loop-shaped recurrence. -/
def refresh_reports (nextUpdate t : Nat) : List Nat :=
  refresh_reportsF (nextUpdate - t) nextUpdate t

/-! Helper lemmas. -/

theorem replaceAllF_nil (pat rep : List Char) (f : Nat) :
    replaceAllF pat rep f [] = [] := by
  cases f <;> rfl

theorem replaceAllF_fuel (pat rep : List Char) :
    ∀ (f1 f2 : Nat) (s : List Char), s.length ≤ f1 → s.length ≤ f2 →
      replaceAllF pat rep f1 s = replaceAllF pat rep f2 s := by
  intro f1
  induction f1 with
  | zero =>
    intro f2 s h1 _
    have hs : s = [] := List.eq_nil_of_length_eq_zero (Nat.le_zero.mp h1)
    subst hs
    rw [replaceAllF_nil, replaceAllF_nil]
  | succ g ih =>
    intro f2 s h1 h2
    cases s with
    | nil => rw [replaceAllF_nil, replaceAllF_nil]
    | cons c cs =>
      cases f2 with
      | zero => simp at h2
      | succ g2 =>
        show (if pat ≠ [] ∧ pat.isPrefixOf (c :: cs) then
            rep ++ replaceAllF pat rep g ((c :: cs).drop pat.length)
          else c :: replaceAllF pat rep g cs) =
          (if pat ≠ [] ∧ pat.isPrefixOf (c :: cs) then
            rep ++ replaceAllF pat rep g2 ((c :: cs).drop pat.length)
          else c :: replaceAllF pat rep g2 cs)
        by_cases h : pat ≠ [] ∧ pat.isPrefixOf (c :: cs)
        · rw [if_pos h, if_pos h]
          have hpat : 1 ≤ pat.length := List.length_pos.mpr h.1
          have hd : ((c :: cs).drop pat.length).length ≤ g := by
            simp only [List.length_drop, List.length_cons]
            simp only [List.length_cons] at h1
            omega
          have hd2 : ((c :: cs).drop pat.length).length ≤ g2 := by
            simp only [List.length_drop, List.length_cons]
            simp only [List.length_cons] at h2
            omega
          rw [ih g2 _ hd hd2]
        · rw [if_neg h, if_neg h]
          simp only [List.length_cons] at h1 h2
          rw [ih g2 cs (by omega) (by omega)]

theorem replaceAll_cons (pat rep : List Char) (c : Char) (cs : List Char) :
    replaceAll pat rep (c :: cs) =
      if pat ≠ [] ∧ pat.isPrefixOf (c :: cs) then
        rep ++ replaceAll pat rep ((c :: cs).drop pat.length)
      else c :: replaceAll pat rep cs := by
  show (if pat ≠ [] ∧ pat.isPrefixOf (c :: cs) then
      rep ++ replaceAllF pat rep cs.length ((c :: cs).drop pat.length)
    else c :: replaceAllF pat rep cs.length cs) = _
  by_cases h : pat ≠ [] ∧ pat.isPrefixOf (c :: cs)
  · rw [if_pos h, if_pos h]
    unfold replaceAll
    have hpat : 1 ≤ pat.length := List.length_pos.mpr h.1
    have hd : ((c :: cs).drop pat.length).length ≤ cs.length := by
      simp only [List.length_drop, List.length_cons]
      omega
    rw [replaceAllF_fuel pat rep cs.length _ _ hd (Nat.le_refl _)]
  · rw [if_neg h, if_neg h]
    rfl

theorem containsSub_cons (pat : List Char) (c : Char) (cs : List Char) :
    containsSub pat (c :: cs) = (pat.isPrefixOf (c :: cs) || containsSub pat cs) := by
  simp [containsSub, List.tails_cons]

theorem replaceAll_of_not_containsSub (pat rep s : List Char)
    (h : containsSub pat s = false) : replaceAll pat rep s = s := by
  induction s with
  | nil => rfl
  | cons c cs ih =>
    rw [containsSub_cons] at h
    simp only [Bool.or_eq_false_iff] at h
    rw [replaceAll_cons, if_neg (by simp [h.1]), ih h.2]

theorem isPrefixOf_append_self : ∀ (p r : List Char), p.isPrefixOf (p ++ r) = true
  | [], _ => by simp [List.isPrefixOf]
  | c :: cs, r => by simp [List.isPrefixOf, isPrefixOf_append_self cs r]

theorem replaceAll_append_pat (pat rep r : List Char) (h : pat ≠ []) :
    replaceAll pat rep (pat ++ r) = rep ++ replaceAll pat rep r := by
  cases hp : pat with
  | nil => exact absurd hp h
  | cons p0 ps =>
    rw [← hp]
    have hcons : pat ++ r = pat.head h :: (pat.tail ++ r) := by
      cases pat with
      | nil => exact absurd rfl h
      | cons a as => rfl
    rw [hcons, replaceAll_cons, if_pos ⟨h, by rw [← hcons]; exact isPrefixOf_append_self pat r⟩,
      ← hcons, List.drop_left]

theorem replaceAll_append_left (p0 : Char) (ps a b rep : List Char) (h : p0 ∉ a) :
    replaceAll (p0 :: ps) rep (a ++ b) = a ++ replaceAll (p0 :: ps) rep b := by
  induction a with
  | nil => rfl
  | cons c a2 ih =>
    have hc : c ≠ p0 := fun he => h (by simp [he])
    rw [List.cons_append, replaceAll_cons, if_neg]
    · rw [ih fun hm => h (by simp [hm]), List.cons_append]
    · intro hcontra
      have h2 := hcontra.2
      simp only [List.isPrefixOf, Bool.and_eq_true, beq_iff_eq] at h2
      exact hc h2.1.symm

theorem refresh_reportsF_stop (f nextUpdate t : Nat) (h : nextUpdate ≤ t) :
    refresh_reportsF f nextUpdate t = [] := by
  cases f with
  | zero => rfl
  | succ g => simp [refresh_reportsF, Nat.not_lt.mpr h]

theorem refresh_reportsF_fuel :
    ∀ (f1 f2 nextUpdate t : Nat), nextUpdate - t ≤ f1 → nextUpdate - t ≤ f2 →
      refresh_reportsF f1 nextUpdate t = refresh_reportsF f2 nextUpdate t := by
  intro f1
  induction f1 with
  | zero =>
    intro f2 n t h1 _
    rw [refresh_reportsF_stop 0 n t (by omega), refresh_reportsF_stop f2 n t (by omega)]
  | succ g ih =>
    intro f2 n t h1 h2
    by_cases hlt : t < n
    · cases f2 with
      | zero => omega
      | succ g2 =>
        show (if t < n then refresh_counter n t :: refresh_reportsF g n (t + 60) else []) =
          (if t < n then refresh_counter n t :: refresh_reportsF g2 n (t + 60) else [])
        rw [if_pos hlt, if_pos hlt, ih g2 n (t + 60) (by omega) (by omega)]
    · rw [refresh_reportsF_stop _ n t (by omega), refresh_reportsF_stop _ n t (by omega)]

theorem refresh_reports_eq (nextUpdate t : Nat) :
    refresh_reports nextUpdate t =
      if t < nextUpdate then
        refresh_counter nextUpdate t :: refresh_reports nextUpdate (t + 60)
      else [] := by
  by_cases hlt : t < nextUpdate
  · rw [if_pos hlt]
    obtain ⟨g, hg⟩ : ∃ g, nextUpdate - t = g + 1 := ⟨nextUpdate - t - 1, by omega⟩
    unfold refresh_reports
    rw [hg]
    show (if t < nextUpdate then
        refresh_counter nextUpdate t :: refresh_reportsF g nextUpdate (t + 60)
      else []) = _
    rw [if_pos hlt, refresh_reportsF_fuel g (nextUpdate - (t + 60)) nextUpdate (t + 60)
      (by omega) (by omega)]
  · rw [if_neg hlt]
    exact refresh_reportsF_stop _ _ _ (by omega)

theorem splitChAux_not_mem (sep : Char) (l : List Char) (h : sep ∉ l) :
    splitChAux sep l = (l, []) := by
  induction l with
  | nil => rfl
  | cons c cs ih =>
    have hc : ¬(c = sep) := fun he => h (by simp [he])
    show (let res := splitChAux sep cs
      if c = sep then ([], res.1 :: res.2) else (c :: res.1, res.2)) = (c :: cs, [])
    rw [ih fun hm => h (by simp [hm])]
    simp [hc]

theorem splitCh_not_mem (sep : Char) (l : List Char) (h : sep ∉ l) :
    splitCh sep l = [l] := by
  simp [splitCh, splitChAux_not_mem sep l h]

theorem splitChAux_append (sep : Char) (p r : List Char) (h : sep ∉ p) :
    splitChAux sep (p ++ sep :: r) = (p, splitCh sep r) := by
  induction p with
  | nil =>
    show (let res := splitChAux sep r
      if sep = sep then ([], res.1 :: res.2) else (sep :: res.1, res.2)) = ([], splitCh sep r)
    simp [splitCh]
  | cons c p2 ih =>
    have hc : ¬(c = sep) := fun he => h (by simp [he])
    show (let res := splitChAux sep (p2 ++ sep :: r)
      if c = sep then ([], res.1 :: res.2) else (c :: res.1, res.2)) = (c :: p2, splitCh sep r)
    rw [ih fun hm => h (by simp [hm])]
    simp [hc]

theorem splitCh_append (sep : Char) (p r : List Char) (h : sep ∉ p) :
    splitCh sep (p ++ sep :: r) = p :: splitCh sep r := by
  simp [splitCh, splitChAux_append sep p r h]

theorem takeWhile_ne_append (sep : Char) (p r : List Char) (h : sep ∉ p) :
    (p ++ sep :: r).takeWhile (fun x => x != sep) = p := by
  induction p with
  | nil => simp [List.takeWhile_cons]
  | cons c p2 ih =>
    have hb : (c != sep) = true := by
      simp only [bne_iff_ne, ne_eq]
      exact fun he => h (by simp [he])
    rw [List.cons_append, List.takeWhile_cons, hb]
    simp only [if_true]
    rw [ih fun hm => h (by simp [hm])]

theorem dropWhile_ne_append (sep : Char) (p r : List Char) (h : sep ∉ p) :
    (p ++ sep :: r).dropWhile (fun x => x != sep) = sep :: r := by
  induction p with
  | nil => simp [List.dropWhile_cons]
  | cons c p2 ih =>
    have hb : (c != sep) = true := by
      simp only [bne_iff_ne, ne_eq]
      exact fun he => h (by simp [he])
    rw [List.cons_append, List.dropWhile_cons, hb]
    simp only [if_true]
    exact ih fun hm => h (by simp [hm])

theorem mkRole_one_comma (v : String) (p r : List Char) (hv : v.data = p ++ ',' :: r)
    (hp : ',' ∉ p) (hr : ',' ∉ r) :
    mkRole v = some ⟨String.mk p, String.mk r⟩ := by
  unfold mkRole
  rw [hv, splitCh_append ',' p r hp, splitCh_not_mem ',' r hr]

theorem collectRoles_map (g : String → RoleTuple) :
    ∀ (vs : List String), (∀ v ∈ vs, mkRole v = some (g v)) →
      collectRoles vs = some (vs.map g) := by
  intro vs
  induction vs with
  | nil => intro _; rfl
  | cons v vs2 ih =>
    intro h
    have h1 : mkRole v = some (g v) := h v (by simp)
    have h2 : collectRoles vs2 = some (vs2.map g) := ih fun w hw => h w (by simp [hw])
    simp [collectRoles, h1, h2]

theorem lookupSection_append_some (a b : Config) (p : String)
    (o : List (String × String)) (h : lookupSection a p = some o) :
    lookupSection (a ++ b) p = some o := by
  induction a with
  | nil => simp [lookupSection] at h
  | cons e rest ih =>
    simp only [lookupSection, List.cons_append] at h ⊢
    by_cases he : (e.1 == p) = true
    · rw [if_pos he] at h ⊢
      exact h
    · rw [if_neg he] at h ⊢
      exact ih h

theorem lookupSection_append_none (a b : Config) (p : String)
    (h : lookupSection a p = none) :
    lookupSection (a ++ b) p = lookupSection b p := by
  induction a with
  | nil => rfl
  | cons e rest ih =>
    simp only [lookupSection, List.cons_append] at h ⊢
    by_cases he : (e.1 == p) = true
    · rw [if_pos he] at h
      exact absurd h (by simp)
    · rw [if_neg he] at h ⊢
      exact ih h

theorem lookupSection_setSection_ne (cfg : Config) (sec k v p : String)
    (h : p ≠ sec) : lookupSection (setSection cfg sec k v) p = lookupSection cfg p := by
  induction cfg with
  | nil => rfl
  | cons e rest ih =>
    by_cases he : (e.1 == sec) = true
    · have hep : (e.1 == p) = false := by
        have he2 : e.1 = sec := by simpa [beq_iff_eq] using he
        simp only [beq_eq_false_iff_ne, ne_eq, he2]
        exact fun hc => h hc.symm
      show lookupSection ((if e.1 == sec then (e.1, setOption e.2 k v) else e) ::
        setSection rest sec k v) p = _
      rw [if_pos he]
      simp only [lookupSection, hep, Bool.false_eq_true, if_false]
      exact ih
    · show lookupSection ((if e.1 == sec then (e.1, setOption e.2 k v) else e) ::
        setSection rest sec k v) p = _
      rw [if_neg he]
      simp only [lookupSection]
      by_cases hep : (e.1 == p) = true
      · rw [if_pos hep, if_pos hep]
      · rw [if_neg hep, if_neg hep]
        exact ih

theorem lookupSection_setSection_self (cfg : Config) (sec k v : String) :
    lookupSection (setSection cfg sec k v) sec =
      (lookupSection cfg sec).map fun o => setOption o k v := by
  induction cfg with
  | nil => rfl
  | cons e rest ih =>
    by_cases he : (e.1 == sec) = true
    · show lookupSection ((if e.1 == sec then (e.1, setOption e.2 k v) else e) ::
        setSection rest sec k v) sec = _
      rw [if_pos he]
      simp [lookupSection, he]
    · show lookupSection ((if e.1 == sec then (e.1, setOption e.2 k v) else e) ::
        setSection rest sec k v) sec = _
      rw [if_neg he]
      simp only [lookupSection]
      rw [if_neg he, if_neg he]
      exact ih

theorem string_append_cancel_right (s t u : String) (h : s ++ u = t ++ u) : s = t := by
  have hd : s.data ++ u.data = t.data ++ u.data := by
    have := congrArg String.data h
    simpa [String.data_append] using this
  exact String.ext (List.append_cancel_right hd)

theorem filter_principal_ne_nil (roles : List RoleTuple) (r : RoleTuple)
    (hmem : r ∈ roles) :
    (roles.filter fun x => x.principal_arn == r.principal_arn).isEmpty = false := by
  have hin : r ∈ roles.filter fun x => x.principal_arn == r.principal_arn :=
    List.mem_filter.mpr ⟨hmem, by simp⟩
  cases hf : roles.filter fun x => x.principal_arn == r.principal_arn with
  | nil => rw [hf] at hin; simp at hin
  | cons a l => rfl

/-! Claim theorems. -/

/-- C1: the claim states that when the account selector matches no binding
(neither a principal ARN in the first pass nor a resolved account name in
the fallback pass) the run fails with the account-not-found error before
any fan-out or store write. The code does the opposite: the guard
`if account_arn and not roles` (entry_points.py line 97) can never fire,
because `account_arn` is always one of the principal ARNs of `roles`, so
filtering on it keeps at least one binding — and when nothing matches,
`account_arn` stays `None`, the filter is skipped, and the run proceeds
with EVERY binding. First conjunct: the account-filter block never
produces any `die` message, for all selectors, bindings and search
semantics. Second conjunct: on a concrete unmatched selector the block
returns the full binding list, so fan-out (token exchanges and store
writes) proceeds for all bindings. -/
theorem c1_account_not_found_is_dead :
    (∀ (search : String → String → Bool) (account : Option String)
        (roles : List RoleTuple) (nameOf : String → String) (m : String),
        resolveAccountPair search account roles nameOf ≠ Except.error m)
    ∧ authenticate_filter reSearchLit false (some "nomatch") none
        [⟨"arn:aws:iam::111111111111:saml-provider/X", "arn:aws:iam::111111111111:role/Admin"⟩]
        (fun _ => "prodaccount")
      = Except.ok
        [⟨"arn:aws:iam::111111111111:saml-provider/X", "arn:aws:iam::111111111111:role/Admin"⟩] := by
  constructor
  · intro search account roles nameOf m
    unfold resolveAccountPair
    by_cases ht : pyTruthy account = true
    · rw [if_pos ht]
      cases hfp : roles.find?
          (fun r => search (accountPattern (account.getD "")) r.principal_arn) with
      | some r =>
        have hmem := List.mem_of_find?_eq_some hfp
        have hne := filter_principal_ne_nil roles r hmem
        simp only [hfp, hne, Bool.false_eq_true, if_false]
        simp
      | none =>
        simp only [hfp]
        cases hfp2 : roles.find?
            (fun r => search (accountPattern (account.getD "")) (nameOf r.principal_arn)) with
        | some r =>
          have hmem := List.mem_of_find?_eq_some hfp2
          have hne := filter_principal_ne_nil roles r hmem
          simp only [Option.map_some', hne, Bool.false_eq_true, if_false]
          simp
        | none => exact fun hc => Except.noConfusion hc
    · rw [if_neg ht]
      exact fun hc => Except.noConfusion hc
  · rfl

/-- C1 witness: the never-fails conjunct applied at a concrete input. -/
theorem c1_account_not_found_is_dead_witness :
    resolveAccountPair reSearchLit (some "acct")
      ([] : List RoleTuple) (fun p => p) ≠ Except.error "Account acct not found." :=
  c1_account_not_found_is_dead.1 reSearchLit (some "acct") [] (fun p => p) _

/-- C2: the claim states the alias-resolution fallback returns the
account-number segment of the assumed-role ARN (`123456789012` for
`arn:aws:sts::123456789012:assumed-role/R/S`) and that alias resolution
never fails, even on a zero-alias response. The code disagrees twice,
against its own `# The account Number` comment (entry_points.py line 330):
the fallback returns `split(":")[5]`, which is the RESOURCE segment
`assumed-role/R/S` (the account number is index 4); and a successful
listing with zero aliases makes `response['AccountAliases'][0]` raise an
IndexError that the ClientError-only `except` does not catch. -/
theorem c2_alias_fallback_wrong_segment :
    get_account_alias ⟨"AK", "SK", "ST", "arn:aws:sts::123456789012:assumed-role/R/S"⟩
        (Except.error ()) = Except.ok "assumed-role/R/S"
    ∧ ("assumed-role/R/S" : String) ≠ "123456789012"
    ∧ get_account_alias ⟨"AK", "SK", "ST", "arn:aws:sts::123456789012:assumed-role/R/S"⟩
        (Except.ok []) = Except.error () :=
  ⟨rfl, by decide, rfl⟩

/-- C3 counterexample: for a store path different from the default
credentials file, the lock file used by `update_creds_file` is NOT the
sibling `<storePath>.lck` — it is the fixed `<defaultCredsFile>.lck`
captured by the decorator. -/
theorem c3_lock_not_scoped_to_store_path :
    update_creds_lock_path "/root/.aws" "/tmp/creds" = "/root/.aws/credentials.lck"
    ∧ update_creds_lock_path "/root/.aws" "/tmp/creds" ≠ "/tmp/creds" ++ ".lck" :=
  ⟨rfl, by decide⟩

/-- C3 amended: the exclusive lock of the Credential Store Writer is always
taken on the fixed path `<defaultCredsFile>.lck` (the module-level
`LOCK_FILE`), whatever store path is being written; it coincides with the
sibling `<storePath>.lck` exactly when the store path IS the default
credentials file. -/
theorem c3_lock_path_is_fixed (awsDir storePath : String) :
    update_creds_lock_path awsDir storePath = creds_file awsDir ++ ".lck"
    ∧ (update_creds_lock_path awsDir storePath = storePath ++ ".lck" ↔
        storePath = creds_file awsDir) := by
  refine ⟨rfl, ?_, ?_⟩
  · intro h
    exact (string_append_cancel_right (creds_file awsDir) storePath ".lck" h).symm
  · intro h
    subst h
    rfl

/-- C3 witness: the amended theorem applied at a concrete input. -/
theorem c3_lock_path_is_fixed_witness :
    update_creds_lock_path "/home/u/.aws" "/tmp/creds" = creds_file "/home/u/.aws" ++ ".lck" :=
  (c3_lock_path_is_fixed "/home/u/.aws" "/tmp/creds").1

/-- C4: non-destructive write. For every on-disk store containing profiles
`p1` and `p2`, writing a profile `p3` not present in the store leaves `p1`
and `p2` with exactly their original option/value pairs and gives `p3`
exactly the four token fields (with `aws_security_token` equal to the
session token) plus `last_updated`, in the order the code sets them
(entry_points.py lines 170-185). -/
theorem c4_write_preserves_other_profiles (store : Config) (p1 p2 p3 : String)
    (o1 o2 : List (String × String)) (token : StsToken) (now : String)
    (h1 : lookupSection store p1 = some o1)
    (h2 : lookupSection store p2 = some o2)
    (h3 : lookupSection store p3 = none) :
    lookupSection (update_creds_file store p3 token now) p1 = some o1
    ∧ lookupSection (update_creds_file store p3 token now) p2 = some o2
    ∧ lookupSection (update_creds_file store p3 token now) p3 =
        some [("aws_access_key_id", token.accessKeyId),
              ("aws_secret_access_key", token.secretAccessKey),
              ("aws_session_token", token.sessionToken),
              ("aws_security_token", token.sessionToken),
              ("last_updated", now)] := by
  have hne1 : p1 ≠ p3 := by
    intro he
    rw [he, h3] at h1
    exact Option.noConfusion h1
  have hne2 : p2 ≠ p3 := by
    intro he
    rw [he, h3] at h2
    exact Option.noConfusion h2
  have hsec : has_section store p3 = false := by
    unfold has_section
    rw [h3]
    rfl
  have hbase : lookupSection (store ++ [(p3, [])]) p3 = some [] := by
    rw [lookupSection_append_none store _ p3 h3]
    simp [lookupSection]
  unfold update_creds_file
  simp only [hsec, Bool.false_eq_true, if_false]
  refine ⟨?_, ?_, ?_⟩
  · simp only [lookupSection_setSection_ne _ _ _ _ _ hne1]
    exact lookupSection_append_some store _ p1 o1 h1
  · simp only [lookupSection_setSection_ne _ _ _ _ _ hne2]
    exact lookupSection_append_some store _ p2 o2 h2
  · simp only [lookupSection_setSection_self, hbase]
    simp [setOption]

/-- C4 witness: the theorem applied to a concrete two-profile store. -/
theorem c4_write_preserves_other_profiles_witness :
    lookupSection [("p1", [("aws_access_key_id", "A")]), ("p2", [("k", "v")])] "p1"
        = some [("aws_access_key_id", "A")]
    ∧ lookupSection [("p1", [("aws_access_key_id", "A")]), ("p2", [("k", "v")])] "p2"
        = some [("k", "v")]
    ∧ lookupSection [("p1", [("aws_access_key_id", "A")]), ("p2", [("k", "v")])] "p3" = none
    ∧ lookupSection
        (update_creds_file [("p1", [("aws_access_key_id", "A")]), ("p2", [("k", "v")])]
          "p3" ⟨"AK", "SK", "ST", "arn"⟩ "2026-01-01T00:00:00Z") "p3"
      = some [("aws_access_key_id", "AK"),
              ("aws_secret_access_key", "SK"),
              ("aws_session_token", "ST"),
              ("aws_security_token", "ST"),
              ("last_updated", "2026-01-01T00:00:00Z")] :=
  ⟨rfl, rfl, rfl,
    (c4_write_preserves_other_profiles
      [("p1", [("aws_access_key_id", "A")]), ("p2", [("k", "v")])] "p1" "p2" "p3"
      [("aws_access_key_id", "A")] [("k", "v")] ⟨"AK", "SK", "ST", "arn"⟩
      "2026-01-01T00:00:00Z" rfl rfl rfl).2.2⟩

/-- C5 counterexample: the claim says a value whose roleId part contains a
comma still yields one binding split on the FIRST comma. On the value
`"p,r,x"` the code's `value.text.split(',')` yields three fields, the
2-field namedtuple constructor raises TypeError and the extraction fails
(`none`), instead of producing the binding `("p", "r,x")`. -/
theorem c5_second_comma_aborts :
    extract_roles [⟨AWS_ATTRIBUTE_ROLE, ["p,r,x"]⟩] = none
    ∧ (none : Option (List RoleTuple)) ≠ some [⟨"p", "r,x"⟩] :=
  ⟨rfl, by decide⟩

/-- C5 amended: for a well-formed assertion each of whose cloud-role
attribute values contains EXACTLY one comma, the Extractor returns exactly
one binding per value, in document order, split at that comma (which is
then also the first comma); the binding count equals the value count. A
value with more than one comma (or none) instead aborts the extraction
with a TypeError. -/
theorem c5_one_comma_bindings (attrs : List SamlAttribute)
    (h : ∀ v ∈ roleValues attrs, ∃ p r,
      v.data = p ++ ',' :: r ∧ ',' ∉ p ∧ ',' ∉ r) :
    extract_roles attrs =
      some ((roleValues attrs).map fun v =>
        (⟨String.mk (v.data.takeWhile fun c => c != ','),
          String.mk ((v.data.dropWhile fun c => c != ',').drop 1)⟩ : RoleTuple))
    ∧ ((roleValues attrs).map fun v =>
        (⟨String.mk (v.data.takeWhile fun c => c != ','),
          String.mk ((v.data.dropWhile fun c => c != ',').drop 1)⟩ : RoleTuple)).length
      = (roleValues attrs).length := by
  constructor
  · unfold extract_roles
    apply collectRoles_map
    intro v hv
    obtain ⟨p, r, hvd, hp, hr⟩ := h v hv
    rw [mkRole_one_comma v p r hvd hp hr]
    have ht : (v.data.takeWhile fun c => c != ',') = p := by
      rw [hvd]
      exact takeWhile_ne_append ',' p r hp
    have hd : ((v.data.dropWhile fun c => c != ',').drop 1) = r := by
      rw [hvd, dropWhile_ne_append ',' p r hp]
      rfl
    simp [ht, hd]
  · exact List.length_map _ _

/-- C5 witness: the amended theorem on a two-attribute document with one
role attribute holding the single-comma value "p,r". -/
theorem c5_one_comma_bindings_witness :
    (∀ v ∈ roleValues [⟨AWS_ATTRIBUTE_ROLE, ["p,r"]⟩, ⟨"other", ["zzz"]⟩], ∃ p r,
      v.data = p ++ ',' :: r ∧ ',' ∉ p ∧ ',' ∉ r)
    ∧ extract_roles [⟨AWS_ATTRIBUTE_ROLE, ["p,r"]⟩, ⟨"other", ["zzz"]⟩] =
        some ((roleValues [⟨AWS_ATTRIBUTE_ROLE, ["p,r"]⟩, ⟨"other", ["zzz"]⟩]).map fun v =>
          (⟨String.mk (v.data.takeWhile fun c => c != ','),
            String.mk ((v.data.dropWhile fun c => c != ',').drop 1)⟩ : RoleTuple)) := by
  have hyp : ∀ v ∈ roleValues [⟨AWS_ATTRIBUTE_ROLE, ["p,r"]⟩, ⟨"other", ["zzz"]⟩], ∃ p r,
      v.data = p ++ ',' :: r ∧ ',' ∉ p ∧ ',' ∉ r := by
    have hrv : roleValues [⟨AWS_ATTRIBUTE_ROLE, ["p,r"]⟩, ⟨"other", ["zzz"]⟩] = ["p,r"] := rfl
    rw [hrv]
    intro v hv
    have hv2 : v = "p,r" := by simpa using hv
    subst hv2
    exact ⟨['p'], ['r'], by decide, by decide, by decide⟩
  exact ⟨hyp, (c5_one_comma_bindings _ hyp).1⟩

/-- C6 counterexample: a pass that starts at time 0 and finishes at time
120 (it took two minutes). The claim says the scheduler sleeps until the
recorded pass-start time plus 59*60 = 3540; the code computes
`next_update = time.time() + 59*60` AFTER the joins, giving 120 + 3540 =
3660. -/
theorem c6_deadline_not_from_pass_start :
    (0 : Nat) ≤ 120 ∧ next_update 120 ≠ 0 + 59 * 60 :=
  ⟨by decide, by decide⟩

/-- C6 amended: in continuous mode the scheduler sleeps until 59 minutes
have elapsed since the pass FINISHED (the deadline is the pass-finish
clock reading plus 59*60, independent of the recorded pass-start time),
reporting the remaining time at minute granularity: the report loop runs
exactly while the clock is below that deadline, printing
`(deadline - now) / 60` each iteration. -/
theorem c6_sleeps_from_pass_finish (startT finishT : Nat) (h : startT ≤ finishT) :
    next_update finishT = finishT + 59 * 60
    ∧ (∀ t, refresh_reports (next_update finishT) t = [] ↔ next_update finishT ≤ t)
    ∧ (∀ t, t < next_update finishT →
        refresh_reports (next_update finishT) t =
          refresh_counter (next_update finishT) t ::
            refresh_reports (next_update finishT) (t + 60)) := by
  refine ⟨rfl, ?_, ?_⟩
  · intro t
    rw [refresh_reports_eq]
    by_cases hlt : t < next_update finishT
    · rw [if_pos hlt]
      constructor
      · intro hc
        exact absurd hc (List.cons_ne_nil _ _)
      · intro hle
        omega
    · rw [if_neg hlt]
      simp [Nat.le_of_not_lt hlt]
  · intro t hlt
    rw [refresh_reports_eq, if_pos hlt]

/-- C6 witness: the amended theorem applied to the pass of the
counterexample. -/
theorem c6_sleeps_from_pass_finish_witness :
    (0 : Nat) ≤ 120 ∧ next_update 120 = 120 + 59 * 60 :=
  ⟨by decide, (c6_sleeps_from_pass_finish 0 120 (by decide)).1⟩

/-- C7 counterexample: the claim says supplying neither selector selects
every role in every account without requiring any additional flag. With
neither `--account` nor `--all-accounts`, the code dies at once with
`'Need --account or --all-accounts'` (entry_points.py lines 61-62) instead
of returning the full binding list. -/
theorem c7_neither_selector_dies :
    authenticate_filter reSearchLit false none none [⟨"P", "R"⟩] (fun p => p)
      = Except.error "Need --account or --all-accounts"
    ∧ (Except.error "Need --account or --all-accounts"
        : Except String (List RoleTuple)) ≠ Except.ok [⟨"P", "R"⟩] :=
  ⟨rfl, fun hc => Except.noConfusion hc⟩

/-- C7 amended: selecting every role in every account requires the
explicit all-accounts flag: with neither an account selector nor the flag
the run fails with the ConfigurationError `'Need --account or
--all-accounts'`; supplying the flag together with an account or role
selector fails with the mutual-exclusion ConfigurationError (both checks
precede any network activity in the code); with the flag alone every
binding of the assertion is selected. -/
theorem c7_all_accounts_needs_flag (search : String → String → Bool)
    (account roleSel : Option String) (roles : List RoleTuple)
    (nameOf : String → String) :
    (pyTruthy account = false →
      authenticate_filter search false account roleSel roles nameOf
        = Except.error "Need --account or --all-accounts")
    ∧ ((pyTruthy account || pyTruthy roleSel) = true →
      authenticate_filter search true account roleSel roles nameOf
        = Except.error "Specify --account/--role or --all-accounts, not both.")
    ∧ authenticate_filter search true none none roles nameOf = Except.ok roles := by
  refine ⟨?_, ?_, ?_⟩
  · intro ha
    unfold authenticate_filter
    simp [ha]
  · intro hor
    unfold authenticate_filter
    simp [hor]
  · rfl

/-- C7 witness: the amended theorem applied at concrete inputs, covering
all three conjuncts. -/
theorem c7_all_accounts_needs_flag_witness :
    pyTruthy (none : Option String) = false
    ∧ authenticate_filter reSearchLit false none none [⟨"P", "R"⟩] (fun p => p)
        = Except.error "Need --account or --all-accounts"
    ∧ (pyTruthy (some "a") || pyTruthy (none : Option String)) = true
    ∧ authenticate_filter reSearchLit true (some "a") none [⟨"P", "R"⟩] (fun p => p)
        = Except.error "Specify --account/--role or --all-accounts, not both."
    ∧ authenticate_filter reSearchLit true none none [⟨"P", "R"⟩] (fun p => p)
        = Except.ok [⟨"P", "R"⟩] :=
  ⟨rfl,
   (c7_all_accounts_needs_flag reSearchLit none none [⟨"P", "R"⟩] (fun p => p)).1 rfl,
   rfl,
   (c7_all_accounts_needs_flag reSearchLit (some "a") none [⟨"P", "R"⟩] (fun p => p)).2.1 rfl,
   (c7_all_accounts_needs_flag reSearchLit none none [⟨"P", "R"⟩] (fun p => p)).2.2⟩

/-- C8 counterexample: the claim says the role short name is the trailing
segment after the LAST `role/` component, also when `role/` occurs more
than once. For `arn:aws:iam::123456789012:role/myrole/Admin` the resource
segment contains `role/` twice; the code's `replace('role/', '')` deletes
BOTH occurrences and yields `myAdmin`, while the spec-worded last-segment
reading yields `Admin`. -/
theorem c8_replace_deletes_every_occurrence :
    get_role_name "arn:aws:iam::123456789012:role/myrole/Admin" = some "myAdmin"
    ∧ spec_role_short_name "arn:aws:iam::123456789012:role/myrole/Admin" = some "Admin"
    ∧ get_role_name "arn:aws:iam::123456789012:role/myrole/Admin"
        ≠ spec_role_short_name "arn:aws:iam::123456789012:role/myrole/Admin" :=
  ⟨by decide, by decide, by decide⟩

/-- C8 amended: the role short name substituted for `%r` is the sixth
colon-separated field of the role identifier with EVERY occurrence of
`role/` deleted. When the field is `role/` followed by a remainder in
which `role/` does not occur again, this equals the text after that
(single, hence last) `role/`, as the claim describes. -/
theorem c8_role_name_single_occurrence (role_arn : String) (r : List Char)
    (hseg : (splitCh ':' role_arn.data)[5]? = some (roleSlash ++ r))
    (hr : containsSub roleSlash r = false) :
    get_role_name role_arn = some (String.mk r) := by
  unfold get_role_name
  rw [hseg]
  simp only [Option.map_some']
  have hrep : replaceAll roleSlash [] (roleSlash ++ r) = r := by
    rw [replaceAll_append_pat roleSlash [] r (by decide),
      replaceAll_of_not_containsSub roleSlash [] r hr]
    rfl
  rw [hrep]

/-- C8 witness: the amended theorem on a single-`role/` identifier. -/
theorem c8_role_name_single_occurrence_witness :
    (splitCh ':' "arn:aws:iam::123456789012:role/Admin".data)[5]?
        = some (roleSlash ++ "Admin".data)
    ∧ containsSub roleSlash "Admin".data = false
    ∧ get_role_name "arn:aws:iam::123456789012:role/Admin"
        = some (String.mk "Admin".data) :=
  ⟨by decide, by decide,
    c8_role_name_single_occurrence "arn:aws:iam::123456789012:role/Admin"
      "Admin".data (by decide) (by decide)⟩

/-- C9 counterexample: the claim says an integer selector is an EXACT
account-number match. Selector "123" parses as the integer 123; the code
rewrites it to the pattern `arn:aws:iam::123` and regex-SEARCHES it in
each principal ARN, so the binding of account 1234 (which merely starts
with 123) is selected even though 1234 is not 123. -/
theorem c9_integer_selector_is_prefix_search :
    resolveAccountPair reSearchLit (some "123")
        [⟨"arn:aws:iam::1234:saml-provider/X", "arn:aws:iam::1234:role/A"⟩] (fun p => p)
      = Except.ok (some "arn:aws:iam::1234:saml-provider/X",
          [⟨"arn:aws:iam::1234:saml-provider/X", "arn:aws:iam::1234:role/A"⟩])
    ∧ pyIntDigits "123" = some 123
    ∧ ("1234" : String) ≠ "123" :=
  ⟨rfl, by decide, by decide⟩

/-- C9 amended: a digit-string selector parsing to a NONZERO integer n is
rewritten to the pattern `arn:aws:iam::n` (built from the parsed value, so
leading zeros are dropped) and regex-searched as a substring of each
principal identifier; the resolver takes the first binding whose principal
contains that pattern and keeps exactly the bindings sharing that
principal — so a binding whose account number merely begins with the
digits of n can be selected. A selector parsing to 0 is falsy and is used
verbatim as a regex instead. -/
theorem c9_nonzero_integer_selector (s : String) (n : Nat) (roles : List RoleTuple)
    (nameOf : String → String) (b : RoleTuple)
    (hn : pyIntDigits s = some n) (hnz : n ≠ 0)
    (hfind : roles.find?
      (fun r => reSearchLit ("arn:aws:iam::" ++ toString n) r.principal_arn) = some b) :
    resolveAccountPair reSearchLit (some s) roles nameOf
      = Except.ok (some b.principal_arn,
          roles.filter fun x => x.principal_arn == b.principal_arn)
    ∧ ∀ x ∈ roles,
        (x ∈ roles.filter (fun x => x.principal_arn == b.principal_arn) ↔
          x.principal_arn = b.principal_arn) := by
  have hsne : s.data ≠ [] := by
    unfold pyIntDigits at hn
    split at hn
    · next h2 => exact h2.1
    · exact absurd hn (by simp)
  have hacct : accountPattern s = "arn:aws:iam::" ++ toString n := by
    unfold accountPattern
    rw [hn]
    simp [hnz]
  constructor
  · have htr : pyTruthy (some s) = true := by
      show (s != "") = true
      simp only [bne_iff_ne, ne_eq]
      intro he
      subst he
      exact hsne rfl
    unfold resolveAccountPair
    rw [if_pos htr]
    simp only [Option.getD_some, hacct, hfind]
    have hne := filter_principal_ne_nil roles b (List.mem_of_find?_eq_some hfind)
    simp only [hne, Bool.false_eq_true, if_false]
  · intro x hx
    constructor
    · intro hxf
      simpa using (List.mem_filter.mp hxf).2
    · intro he
      exact List.mem_filter.mpr ⟨hx, by simp [he]⟩

/-- C9 witness: the amended theorem applied to the counterexample input. -/
theorem c9_nonzero_integer_selector_witness :
    pyIntDigits "123" = some 123
    ∧ (123 : Nat) ≠ 0
    ∧ List.find?
        (fun r => reSearchLit ("arn:aws:iam::" ++ toString 123) r.principal_arn)
        [(⟨"arn:aws:iam::1234:saml-provider/X", "arn:aws:iam::1234:role/A"⟩ : RoleTuple)]
      = some ⟨"arn:aws:iam::1234:saml-provider/X", "arn:aws:iam::1234:role/A"⟩
    ∧ resolveAccountPair reSearchLit (some "123")
        [⟨"arn:aws:iam::1234:saml-provider/X", "arn:aws:iam::1234:role/A"⟩] (fun p => p)
      = Except.ok (some "arn:aws:iam::1234:saml-provider/X",
          List.filter
            (fun x => x.principal_arn == "arn:aws:iam::1234:saml-provider/X")
            [(⟨"arn:aws:iam::1234:saml-provider/X", "arn:aws:iam::1234:role/A"⟩ : RoleTuple)]) :=
  ⟨by decide, by decide, rfl,
    (c9_nonzero_integer_selector "123" 123
      [⟨"arn:aws:iam::1234:saml-provider/X", "arn:aws:iam::1234:role/A"⟩] (fun p => p)
      ⟨"arn:aws:iam::1234:saml-provider/X", "arn:aws:iam::1234:role/A"⟩
      (by decide) (by decide) rfl).1⟩

/-- C10: when the ARN is not cached and the token exchange returns no token
(falsy), `get_account_name` returns the principal ARN itself, raises
nothing, attempts the exchange (and would attempt it again on a later call,
since the cache is untouched); a profile templated with the default
`%a:%r` then starts with the full principal ARN. -/
theorem c10_no_token_returns_principal_arn (cache : List (String × String))
    (arn : String) (getAlias : StsToken → Except Unit String)
    (hmiss : lookupAssoc cache arn = none) :
    get_account_name_model cache arn none getAlias = Except.ok (arn, cache, true)
    ∧ ∀ roleName : String, '%' ∉ arn.data →
        profile_name "%a:%r" arn roleName = arn ++ ":" ++ roleName := by
  constructor
  · simp [get_account_name_model, hmiss, Except.map]
  · intro roleName hpct
    unfold profile_name
    have h1 : replaceAll ('%' :: ['a']) arn.data "%a:%r".data
        = arn.data ++ (':' :: '%' :: 'r' :: []) := by
      have hshow : "%a:%r".data = ('%' :: ['a']) ++ (':' :: '%' :: 'r' :: []) := by decide
      rw [hshow, replaceAll_append_pat _ _ _ (by decide),
        replaceAll_of_not_containsSub _ _ _ (by decide)]
    have h2 : replaceAll ('%' :: ['r']) roleName.data (arn.data ++ (':' :: '%' :: 'r' :: []))
        = arn.data ++ ':' :: roleName.data := by
      rw [replaceAll_append_left '%' ['r'] arn.data _ _ hpct]
      congr 1
      rw [replaceAll_cons, if_neg (by decide)]
      congr 1
      have hnil : replaceAll ('%' :: ['r']) roleName.data [] = [] := rfl
      have hfin : replaceAll ('%' :: ['r']) roleName.data (('%' :: ['r']) ++ [])
          = roleName.data ++ replaceAll ('%' :: ['r']) roleName.data [] :=
        replaceAll_append_pat _ _ _ (by decide)
      simpa [hnil] using hfin
    rw [h1, h2]
    refine String.ext ?_
    simp [String.data_append]

/-- C10 witness: the theorem applied with an empty cache and the default
profile template. -/
theorem c10_no_token_returns_principal_arn_witness :
    lookupAssoc [] "arn:aws:iam::123456789012:saml-provider/ADFS" = none
    ∧ get_account_name_model [] "arn:aws:iam::123456789012:saml-provider/ADFS" none
        (fun _ => Except.ok "x")
      = Except.ok ("arn:aws:iam::123456789012:saml-provider/ADFS", [], true)
    ∧ '%' ∉ "arn:aws:iam::123456789012:saml-provider/ADFS".data
    ∧ profile_name "%a:%r" "arn:aws:iam::123456789012:saml-provider/ADFS" "Admin"
        = "arn:aws:iam::123456789012:saml-provider/ADFS" ++ ":" ++ "Admin" := by
  have hm : lookupAssoc [] "arn:aws:iam::123456789012:saml-provider/ADFS" = none := rfl
  have hth := c10_no_token_returns_principal_arn []
    "arn:aws:iam::123456789012:saml-provider/ADFS" (fun _ => Except.ok "x") hm
  exact ⟨hm, hth.1, by decide, hth.2 "Admin" (by decide)⟩

end Samlkeygen
